import Mathlib

/-!
Shallow embedding of the position-lifecycle and order-reconciliation core of
the `ml-ai-trading` repository (`src/order_manager.py` and the reconciliation
part of `bot.py`), together with theorems checking the natural-language
specification against it.

Modelling conventions:
* Python floats are modelled as `ℚ`.
* The exchange client (`self.kucoin`) is modelled as an oracle `World`:
  `fetch_ticker` either returns a price (`some p`) or raises (`none`);
  each `create_order` call either succeeds or raises, driven by a schedule
  `createOk : ℕ → Bool` indexed by a running call counter.
* Exceptions that the Python code catches are absorbed inside the embedded
  function; exceptions the code does NOT catch surface as `Except.error ()`.
* Side effects on the exchange are recorded as a trace of `Event`s.
-/

namespace MLTrading

/-- Order direction; the source uses the strings `buy` and `sell`. -/
inductive Dir where
  | buy
  | sell
deriving DecidableEq, Repr

/-- One entry of `OrderManager.open_orders` (the dict appended in
`place_order`, `src/order_manager.py` lines 88–95). -/
structure Order where
  symbol : String
  direction : Dir
  order_size : ℚ
  entry_price : ℚ
  stop_loss_price : ℚ
  take_profit_price : ℚ
deriving DecidableEq, Repr

/-- The configuration fields the core reads (`self.config[...]`). -/
structure Config where
  investment_amount : ℚ
  leverage : ℚ
  sl_percentage : ℚ
  tp_percentage : ℚ
deriving DecidableEq, Repr

/-- One CSV row written by `OrderManager.log_trade`. -/
structure TradeRecord where
  symbol : String
  direction : Dir
  order_size : ℚ
  entry_price : ℚ
  exit_price : ℚ
  stop_loss : ℚ
  take_profit : ℚ
deriving DecidableEq, Repr

/-- Observable interactions with the exchange client. The last field of
`createOrder` is the `reduceOnly` parameter: `false` for opens, `true` for
closes. -/
inductive Event where
  | fetchTicker (symbol : String)
  | createOrder (symbol : String) (side : Dir) (amount : ℚ) (reduceOnly : Bool)
  | sleep (seconds : ℕ)
deriving DecidableEq, Repr

/-- Oracle for the external collaborators: ticker fetches, the success or
failure of each successive `create_order` call (indexed by a running call
counter), and the per-symbol signal produced by the model
(`none` models every path of `bot.run` that `continue`s before reconciliation:
missing data, failed preprocessing, failed training, no valid signal). -/
structure World where
  ticker : String → Option ℚ
  createOk : ℕ → Bool
  signal : String → Option ℤ

/-- The mutable state of `OrderManager` (shared `config` dict, `open_orders`
list, trade log) plus the running `create_order` call counter. -/
structure OMState where
  config : Config
  open_orders : List Order
  trades : List TradeRecord
  calls : ℕ
deriving DecidableEq, Repr

/-- Left-to-right, non-overlapping replacement of `old` by `new` in a char
list, exactly as the Python method `str.replace` performs it. The fuel
argument (instantiated with the length of the list) only makes the recursion
structural; each step consumes at least one character when `old` is
nonempty. -/
def replaceLoop (old new : List Char) : ℕ → List Char → List Char
  | 0, s => s
  | _ + 1, [] => []
  | fuel + 1, c :: rest =>
    if !old.isEmpty && old.isPrefixOf (c :: rest) then
      new ++ replaceLoop old new fuel ((c :: rest).drop old.length)
    else
      c :: replaceLoop old new fuel rest

/-- The Python method `str.replace(old, new)` (for nonempty `old`). -/
def strReplace (s old new : String) : String :=
  ⟨replaceLoop old.data new.data s.data.length s.data⟩

/-- `OrderManager.format_symbol`:
`symbol.replace("-", "/").replace("USD", "USDT:USDT")`. -/
def format_symbol (symbol : String) : String :=
  strReplace (strReplace symbol "-" "/") "USD" "USDT:USDT"

/-- The `for attempt in range(n): try: <call>; break / except: sleep(5)`
pattern shared by `place_order` and `close_order`. Returns the emitted
events, the number of `create_order` calls made, and whether one succeeded.
`ev` is the `create_order` event of one attempt; attempt `k` is call number
`base + k` of the schedule. -/
def retryLoop (ok : ℕ → Bool) (base : ℕ) (ev : Event) : ℕ → List Event × ℕ × Bool
  | 0 => ([], 0, false)
  | n + 1 =>
    if ok base then ([ev], 1, true)
    else
      let r := retryLoop ok (base + 1) ev n
      (ev :: Event.sleep 5 :: r.1, r.2.1 + 1, r.2.2)

/-- Ticker fetches made by `OrderManager.show_open_trades` (each wrapped in
its own try/except, so failures are absorbed). -/
def show_open_trades_events (l : List Order) : List Event :=
  l.map (fun o => Event.fetchTicker o.symbol)

/-- `src/order_manager.py` lines 55–60: order sizing with the one-shot
`investment_amount` correction, mutating the shared config. Returns the
(possibly updated) config and the order size actually used. -/
def computeSizing (cfg : Config) (current_price : ℚ) : Config × ℚ :=
  let order_size := cfg.investment_amount * cfg.leverage / current_price
  if order_size < 1 then
    let cfg' := { cfg with
      investment_amount := ((⌈current_price / cfg.leverage⌉ : ℤ) : ℚ) }
    (cfg', cfg'.investment_amount * cfg'.leverage / current_price)
  else
    (cfg, order_size)

/-- `OrderManager.calculate_profit_percentage`. -/
def calculate_profit_percentage (entry_price current_price : ℚ) (direction : Dir) : ℚ :=
  if direction = Dir.buy then
    (current_price - entry_price) / entry_price * 100
  else
    (entry_price - current_price) / entry_price * 100

/-- `OrderManager.place_order(symbol, signal)`. The outer try/except catches
every exception (including a failing `fetch_ticker`), so the embedding is
total. A `None` signal returns immediately; otherwise the de-duplication
pre-check over `open_orders` may skip; otherwise the ticker is fetched, the
size computed (`computeSizing`), SL/TP derived, and up to 3 `create_order`
attempts made with a 5-second sleep after each failure. On success the new
order is appended and `show_open_trades` runs. -/
def place_order (w : World) (st : OMState) (symbol : String) (signal : Option ℤ) :
    OMState × List Event :=
  match signal with
  | none => (st, [])
  | some sig =>
    let fsym := format_symbol symbol
    if st.open_orders.any (fun o =>
        o.symbol == fsym &&
        ((sig == 1 && o.direction == Dir.buy) || (sig == 0 && o.direction == Dir.sell))) then
      (st, [])
    else
      match w.ticker fsym with
      | none => (st, [Event.fetchTicker fsym])
      | some current_price =>
        let sz := computeSizing st.config current_price
        let config := sz.1
        let order_size := sz.2
        let side := if sig == 1 then Dir.buy else Dir.sell
        let stop_loss_price :=
          if side = Dir.buy then current_price * (1 - config.sl_percentage / 100)
          else current_price * (1 + config.sl_percentage / 100)
        let take_profit_price :=
          if side = Dir.buy then current_price * (1 + config.tp_percentage / 100)
          else current_price * (1 - config.tp_percentage / 100)
        let r := retryLoop w.createOk st.calls
          (Event.createOrder fsym side order_size false) 3
        if r.2.2 then
          let newOrder : Order :=
            { symbol := fsym
              direction := side
              order_size := order_size
              entry_price := current_price
              stop_loss_price := stop_loss_price
              take_profit_price := take_profit_price }
          let st' := { st with
            config := config
            open_orders := st.open_orders ++ [newOrder]
            calls := st.calls + r.2.1 }
          (st', Event.fetchTicker fsym :: r.1 ++ show_open_trades_events st'.open_orders)
        else
          ({ st with config := config, calls := st.calls + r.2.1 },
           Event.fetchTicker fsym :: r.1)

/-- The row `log_trade` appends for a closed order. -/
def mkTradeRecord (o : Order) (exit_price : ℚ) : TradeRecord :=
  { symbol := o.symbol
    direction := o.direction
    order_size := o.order_size
    entry_price := o.entry_price
    exit_price := exit_price
    stop_loss := o.stop_loss_price
    take_profit := o.take_profit_price }

/-- `OrderManager.close_order(order, current_price)`: up to 3 reduce-only
`create_order` attempts in the opposite direction with 5-second sleeps after
failures; on success `log_trade` runs and the order is removed from
`open_orders`; on exhaustion nothing changes. The outer try/except makes the
embedding total. -/
def close_order (w : World) (st : OMState) (order : Order) (current_price : ℚ) :
    OMState × List Event :=
  let direction := if order.direction = Dir.buy then Dir.sell else Dir.buy
  let r := retryLoop w.createOk st.calls
    (Event.createOrder order.symbol direction order.order_size true) 3
  if r.2.2 then
    ({ st with
        open_orders := st.open_orders.erase order
        trades := st.trades ++ [mkTradeRecord order current_price]
        calls := st.calls + r.2.1 }, r.1)
  else
    ({ st with calls := st.calls + r.2.1 }, r.1)

/-- The stop-loss/take-profit condition of `OrderManager.monitor_trades`
(`src/order_manager.py` lines 108–113): the position is closed exactly when
this is `true`. -/
def exitTrigger (o : Order) (current_price : ℚ) : Bool :=
  if o.direction = Dir.buy then
    decide (current_price ≤ o.stop_loss_price) || decide (current_price ≥ o.take_profit_price)
  else
    decide (current_price ≥ o.stop_loss_price) || decide (current_price ≤ o.take_profit_price)

/-- Loop body of `monitor_trades`: iterates over a snapshot of `open_orders`
(`self.open_orders[:]`). The `fetch_ticker` on line 107 is NOT inside a
try/except, so a raising ticker propagates (`Except.error`). -/
def monitorGo (w : World) : List Order → OMState → List Event →
    Except Unit (OMState × List Event)
  | [], st, evs => Except.ok (st, evs ++ show_open_trades_events st.open_orders)
  | o :: rest, st, evs =>
    match w.ticker o.symbol with
    | none => Except.error ()
    | some current_price =>
      if exitTrigger o current_price then
        let r := close_order w st o current_price
        monitorGo w rest r.1 (evs ++ Event.fetchTicker o.symbol :: r.2)
      else
        monitorGo w rest st (evs ++ [Event.fetchTicker o.symbol])

/-- `OrderManager.monitor_trades`. -/
def monitor_trades (w : World) (st : OMState) : Except Unit (OMState × List Event) :=
  monitorGo w st.open_orders st []

/-- One per-symbol pass of `MovingAverageCrossoverML.run` (`bot.py` lines
75–135). A `none` signal collapses every `continue` path before
reconciliation. If an order for the formatted symbol exists, the ticker fetch
on line 124 happens BEFORE the conflict check and is not inside a try/except,
so its failure propagates (`Except.error`). On a conflicting signal the
existing order is closed and then `place_order` is called unconditionally;
on a non-conflicting signal no action is taken. -/
def processSymbol (w : World) (st : OMState) (symbol : String) :
    Except Unit (OMState × List Event) :=
  match w.signal symbol with
  | none => Except.ok (st, [])
  | some sig =>
    let fsym := format_symbol symbol
    match st.open_orders.find? (fun o => o.symbol == fsym) with
    | none => Except.ok (place_order w st symbol (some sig))
    | some existing =>
      match w.ticker fsym with
      | none => Except.error ()
      | some current_price =>
        if (existing.direction == Dir.buy && sig == 0) ||
           (existing.direction == Dir.sell && sig == 1) then
          let r1 := close_order w st existing current_price
          let r2 := place_order w r1.1 symbol (some sig)
          Except.ok (r2.1, Event.fetchTicker fsym :: (r1.2 ++ r2.2))
        else
          Except.ok (st, [Event.fetchTicker fsym])

/-- `for symbol in self.symbols:` — sequential per-symbol processing; an
uncaught exception aborts the whole loop. -/
def processSymbols (w : World) : List String → OMState → List Event →
    Except Unit (OMState × List Event)
  | [], st, evs => Except.ok (st, evs)
  | s :: rest, st, evs =>
    match processSymbol w st s with
    | Except.error e => Except.error e
    | Except.ok r => processSymbols w rest r.1 (evs ++ r.2)

/-- One iteration of the `while True:` body of `bot.run`: reconcile every
symbol, then `monitor_trades`. Neither call is guarded by a try/except, so an
uncaught exception in either aborts the cycle (and hence the run loop). -/
def runCycle (w : World) (st : OMState) (symbols : List String) :
    Except Unit (OMState × List Event) :=
  match processSymbols w symbols st [] with
  | Except.error e => Except.error e
  | Except.ok r =>
    match monitor_trades w r.1 with
    | Except.error e => Except.error e
    | Except.ok r2 => Except.ok (r2.1, r.2 ++ r2.2)

/-- The state `OrderManager.__init__` produces: empty ledger, empty trade
log. -/
def initState (cfg : Config) : OMState :=
  { config := cfg, open_orders := [], trades := [], calls := 0 }

/-- One atomic ledger-affecting step of the running system: a per-symbol
reconciliation pass, or one `close_order` (the `monitor_trades` sweep is a
sequence of such closes, so every intermediate state of a sweep is reachable
through `close` steps). -/
inductive Step : OMState → OMState → Prop
  | process (w : World) (symbol : String) (st : OMState) (r : OMState × List Event) :
      processSymbol w st symbol = Except.ok r → Step st r.1
  | close (w : World) (st : OMState) (o : Order) (p : ℚ) :
      Step st (close_order w st o p).1

/-- States the system can be in, starting from a fresh `OrderManager`. -/
def Reachable (cfg : Config) (st : OMState) : Prop :=
  Relation.ReflTransGen Step (initState cfg) st

/-- The ledger invariant of the spec: no two open orders share the same
`(symbol, direction)` pair. -/
def LedgerInv (l : List Order) : Prop :=
  l.Pairwise (fun a b => ¬(a.symbol = b.symbol ∧ a.direction = b.direction))

/-- An event that opens exposure: a non-reduce-only `create_order` call. -/
def isOpenAttempt : Event → Bool
  | Event.createOrder _ _ _ false => true
  | _ => false

/-- An event that closes exposure: a reduce-only `create_order` call. -/
def isCloseAttempt : Event → Bool
  | Event.createOrder _ _ _ true => true
  | _ => false

/-! ### Concrete fixtures used by the example-based theorems and witnesses -/

/-- A sample configuration (investment 10 USDT, leverage 5, SL 5 %, TP 10 %). -/
def cfgA : Config :=
  { investment_amount := 10, leverage := 5, sl_percentage := 5, tp_percentage := 10 }

/-- A sample configuration with a larger investment amount. -/
def cfgB : Config :=
  { investment_amount := 100, leverage := 5, sl_percentage := 5, tp_percentage := 10 }

/-- The LONG position of the worked spec example: entry 100, stop-loss 95,
take-profit 110 (symbol as `format_symbol` produces it from `BTC-USD`). -/
def sampleLong : Order :=
  { symbol := "BTC/USDT:USDT", direction := Dir.buy, order_size := 5,
    entry_price := 100, stop_loss_price := 95, take_profit_price := 110 }

/-- A state holding exactly the sample LONG position. -/
def stLong : OMState :=
  { config := cfgB, open_orders := [sampleLong], trades := [], calls := 0 }

/-- The position a successful BUY open at price 1000 under `cfgA` produces
(after the sizing correction to investment 200): size 1, SL 950, TP 1100. -/
def openedA : Order :=
  { symbol := "BTC/USDT:USDT", direction := Dir.buy, order_size := 1,
    entry_price := 1000, stop_loss_price := 950, take_profit_price := 1100 }

/-- A world whose exchange always raises on `create_order`, quotes every
symbol at 100, and signals SELL (0) everywhere. -/
def wFailSell : World :=
  { ticker := fun _ => some 100, createOk := fun _ => false, signal := fun _ => some 0 }

/-- A world whose ticker always raises and that signals BUY (1) everywhere. -/
def wNoTicker : World :=
  { ticker := fun _ => none, createOk := fun _ => true, signal := fun _ => some 1 }

/-- A reliable world quoting 1000 everywhere and signalling BUY. -/
def wQuote1000 : World :=
  { ticker := fun _ => some 1000, createOk := fun _ => true, signal := fun _ => some 1 }

/-- A reliable world quoting 1000 for the formatted symbol `A/USDT:USDT` and
100 elsewhere, signalling BUY everywhere. -/
def wTwoQuotes : World :=
  { ticker := fun s => if s = "A/USDT:USDT" then some 1000 else some 100,
    createOk := fun _ => true, signal := fun _ => some 1 }

/-- `cfgA` after the sizing correction fired at price 1000. -/
def cfg200 : Config :=
  { investment_amount := 200, leverage := 5, sl_percentage := 5, tp_percentage := 10 }

/-- The position cycle 1 of the C10 demonstration opens on symbol `A-USD`. -/
def orderA : Order :=
  { symbol := "A/USDT:USDT", direction := Dir.buy, order_size := 1,
    entry_price := 1000, stop_loss_price := 950, take_profit_price := 1100 }

/-- The position cycle 2 of the C10 demonstration opens on symbol `B-USD`:
its size 10 comes from the corrected investment amount 200 (200 · 5 / 100),
not from the originally configured 10 (which would have given 0.5). -/
def orderB : Order :=
  { symbol := "B/USDT:USDT", direction := Dir.buy, order_size := 10,
    entry_price := 100, stop_loss_price := 95, take_profit_price := 110 }

/-- The manager state after cycle 1 of the C10 demonstration. -/
def stAfterA : OMState :=
  { config := cfg200, open_orders := [orderA], trades := [], calls := 1 }

/-- The manager state after cycle 2 of the C10 demonstration. -/
def stAfterB : OMState :=
  { config := cfg200, open_orders := [orderA, orderB], trades := [], calls := 2 }

/-- The manager state after a first successful BUY open on `BTC-USD` under
`cfgA` at price 1000. -/
def stAfterBuy : OMState :=
  { config := cfg200, open_orders := [openedA], trades := [], calls := 1 }

/-! ## General lemmas about the retry loop -/

/-- A first successful attempt short-circuits the retry loop: one call, no
sleep. -/
theorem retryLoop_first_ok (ok : ℕ → Bool) (base : ℕ) (ev : Event) (n : ℕ)
    (h : ok base = true) : retryLoop ok base ev (n + 1) = ([ev], 1, true) := by
  simp [retryLoop, h]

/-- Specialisation of `retryLoop_first_ok` to the budget 3 used by the
source. -/
theorem retryLoop3_first_ok (ok : ℕ → Bool) (base : ℕ) (ev : Event)
    (h : ok base = true) : retryLoop ok base ev 3 = ([ev], 1, true) := by
  simp [retryLoop, h]

/-- Three failing attempts: the trace is three calls, each followed by a
5-second sleep, and the loop reports failure. -/
theorem retryLoop_fail3 (ok : ℕ → Bool) (base : ℕ) (ev : Event)
    (h0 : ok base = false) (h1 : ok (base + 1) = false) (h2 : ok (base + 2) = false) :
    retryLoop ok base ev 3 =
      ([ev, Event.sleep 5, ev, Event.sleep 5, ev, Event.sleep 5], 3, false) := by
  simp [retryLoop, h0, h1, h2, show base + 1 + 1 = base + 2 by omega]

/-- The retry loop reports success exactly when some attempt within the
budget succeeds. -/
theorem retryLoop_success_iff (ok : ℕ → Bool) (ev : Event) :
    ∀ (n base : ℕ),
      (retryLoop ok base ev n).2.2 = true ↔ ∃ k, k < n ∧ ok (base + k) = true := by
  intro n
  induction n with
  | zero =>
    intro base
    simp [retryLoop]
  | succ m ih =>
    intro base
    by_cases h : ok base = true
    · simp only [retryLoop, h, if_true, true_iff]
      exact ⟨0, Nat.succ_pos m, by simpa using h⟩
    · simp only [Bool.not_eq_true] at h
      simp only [retryLoop, h, Bool.false_eq_true, if_false]
      rw [ih (base + 1)]
      constructor
      · rintro ⟨k, hk, hok⟩
        exact ⟨k + 1, by omega, by rw [show base + (k + 1) = base + 1 + k by omega]; exact hok⟩
      · rintro ⟨k, hk, hok⟩
        cases k with
        | zero =>
          rw [Nat.add_zero] at hok
          rw [hok] at h
          cases h
        | succ j =>
          exact ⟨j, by omega,
            by rw [show base + 1 + j = base + (j + 1) by omega]; exact hok⟩

/-- The sizing correction touches only `investment_amount`: leverage and the
SL/TP percentages pass through unchanged. -/
theorem computeSizing_fields (cfg : Config) (p : ℚ) :
    (computeSizing cfg p).1.leverage = cfg.leverage ∧
    (computeSizing cfg p).1.sl_percentage = cfg.sl_percentage ∧
    (computeSizing cfg p).1.tp_percentage = cfg.tp_percentage := by
  simp only [computeSizing]
  split <;> simp

/-- Characterisation of a position freshly created by `place_order`: it was
opened at the fetched price, in the direction given by the signal, with the
size from `computeSizing` and the directional SL/TP offsets of the
configuration. -/
theorem place_order_mem_new (w : World) (st : OMState) (symbol : String) (sig : ℤ)
    (o : Order) (hmem : o ∈ (place_order w st symbol (some sig)).1.open_orders)
    (hnew : o ∉ st.open_orders) :
    ∃ p, w.ticker (format_symbol symbol) = some p ∧
      o.direction = (if sig == 1 then Dir.buy else Dir.sell) ∧
      o.entry_price = p ∧
      o.order_size = (computeSizing st.config p).2 ∧
      o.stop_loss_price = (if (if sig == 1 then Dir.buy else Dir.sell) = Dir.buy then
          p * (1 - st.config.sl_percentage / 100)
        else p * (1 + st.config.sl_percentage / 100)) ∧
      o.take_profit_price = (if (if sig == 1 then Dir.buy else Dir.sell) = Dir.buy then
          p * (1 + st.config.tp_percentage / 100)
        else p * (1 - st.config.tp_percentage / 100)) := by
  by_cases hpre : (st.open_orders.any fun o' =>
      o'.symbol == format_symbol symbol &&
      ((sig == 1 && o'.direction == Dir.buy) || (sig == 0 && o'.direction == Dir.sell))) = true
  · simp only [place_order, hpre, if_true] at hmem
    exact absurd hmem hnew
  · cases hticker : w.ticker (format_symbol symbol) with
    | none =>
      simp only [place_order, hpre, hticker, Bool.false_eq_true, if_false] at hmem
      exact absurd hmem hnew
    | some p =>
      by_cases hsucc : (retryLoop w.createOk st.calls
          (Event.createOrder (format_symbol symbol)
            (if sig == 1 then Dir.buy else Dir.sell) (computeSizing st.config p).2 false)
          3).2.2 = true
      · simp only [place_order, hpre, hticker, hsucc, Bool.false_eq_true, if_false, if_true,
          List.mem_append, List.mem_singleton] at hmem
        rcases hmem with hmem | rfl
        · exact absurd hmem hnew
        · refine ⟨p, rfl, rfl, rfl, rfl, ?_, ?_⟩
          · simp [(computeSizing_fields st.config p).2.1]
          · simp [(computeSizing_fields st.config p).2.2]
      · simp only [place_order, hpre, hticker, hsucc, Bool.false_eq_true, if_false] at hmem
        exact absurd hmem hnew

/-! ## C5 — exit-trigger correctness -/

/-- C5: the Exit Monitor closes a LONG (`buy`) position exactly when
`current_price <= stop_loss_price` or `current_price >= take_profit_price`,
and a SHORT (`sell`) position exactly when
`current_price >= stop_loss_price` or `current_price <= take_profit_price`;
a single triggered position is removed by the sweep, an untriggered one is
kept; and for the LONG with entry 100, stop-loss 95, take-profit 110, price
94 and price 111 trigger a close while price 100 does not. -/
theorem c5_exit_trigger_correctness :
    (∀ (o : Order) (p : ℚ), o.direction = Dir.buy →
      (exitTrigger o p = true ↔ p ≤ o.stop_loss_price ∨ p ≥ o.take_profit_price)) ∧
    (∀ (o : Order) (p : ℚ), o.direction = Dir.sell →
      (exitTrigger o p = true ↔ p ≥ o.stop_loss_price ∨ p ≤ o.take_profit_price)) ∧
    (∀ (w : World) (st : OMState) (o : Order) (p : ℚ),
      st.open_orders = [o] → w.ticker o.symbol = some p → w.createOk st.calls = true →
      ∃ r, monitor_trades w st = Except.ok r ∧
        r.1.open_orders = (if exitTrigger o p = true then [] else [o])) ∧
    exitTrigger sampleLong 94 = true ∧
    exitTrigger sampleLong 111 = true ∧
    exitTrigger sampleLong 100 = false := by
  refine ⟨?_, ?_, ?_, ?_, ?_, ?_⟩
  · intro o p h
    simp [exitTrigger, h]
  · intro o p h
    simp [exitTrigger, h]
  · intro w st o p hledger ht hok
    unfold monitor_trades
    rw [hledger]
    by_cases htrig : exitTrigger o p = true
    · simp only [monitorGo, ht, htrig, if_true]
      have hclose : (close_order w st o p).1.open_orders = st.open_orders.erase o := by
        simp [close_order, retryLoop3_first_ok, hok]
      refine ⟨_, rfl, ?_⟩
      simp [hclose, hledger, htrig, List.erase_cons_head]
    · simp only [Bool.not_eq_true] at htrig
      simp only [monitorGo, ht, htrig, Bool.false_eq_true, if_false]
      exact ⟨_, rfl, by simp [hledger, htrig]⟩
  · norm_num [exitTrigger, sampleLong]
  · norm_num [exitTrigger, sampleLong]
  · norm_num [exitTrigger, sampleLong]

/-- Witness for C5 at concrete inputs: the LONG branch of the iff at price
94, and the sweep removing the triggered sample position. -/
theorem c5_exit_trigger_correctness_witness :
    ((94 : ℚ) ≤ sampleLong.stop_loss_price ∨ (94 : ℚ) ≥ sampleLong.take_profit_price) ∧
    (∃ r, monitor_trades wQuote1000 stLong = Except.ok r ∧
      r.1.open_orders = (if exitTrigger sampleLong 1000 = true then [] else [sampleLong])) := by
  constructor
  · exact (c5_exit_trigger_correctness.1 sampleLong 94 rfl).mp
      (by norm_num [exitTrigger, sampleLong])
  · exact c5_exit_trigger_correctness.2.2.1 wQuote1000 stLong sampleLong 1000 rfl rfl rfl

/-! ## C6 — one-shot minimum-size correction -/

/-- C6: an open computes `order_size = investment_amount * leverage /
current_price`; when that is below 1 it recomputes `investment_amount =
ceil(current_price / leverage)` and the size exactly once (the result is
literally the one-shot correction formula, with no further iteration); with
investment 10, leverage 5, price 1000 the first size is 0.05, and the
corrected values are investment 200 and size 1.0 — also when run through the
full `place_order` open. -/
theorem c6_sizing_correction :
    (∀ (cfg : Config) (p : ℚ),
      computeSizing cfg p =
        (if cfg.investment_amount * cfg.leverage / p < 1 then
          ({ cfg with investment_amount := ((⌈p / cfg.leverage⌉ : ℤ) : ℚ) },
            ((⌈p / cfg.leverage⌉ : ℤ) : ℚ) * cfg.leverage / p)
        else
          (cfg, cfg.investment_amount * cfg.leverage / p))) ∧
    cfgA.investment_amount * cfgA.leverage / 1000 = (0.05 : ℚ) ∧
    (0.05 : ℚ) < 1 ∧
    computeSizing cfgA 1000 = ({ cfgA with investment_amount := 200 }, 1) ∧
    (place_order wQuote1000 (initState cfgA) "BTC-USD" (some 1)).1.config.investment_amount
      = 200 ∧
    (∃ o, (place_order wQuote1000 (initState cfgA) "BTC-USD" (some 1)).1.open_orders = [o] ∧
      o.order_size = 1) := by
  have hf : format_symbol "BTC-USD" = "BTC/USDT:USDT" := by decide
  refine ⟨fun cfg p => rfl, by norm_num [cfgA], by norm_num, ?_, ?_, ?_⟩
  · norm_num [computeSizing, cfgA]
  · norm_num [place_order, computeSizing, retryLoop, initState, cfgA, wQuote1000, hf]
  · refine ⟨openedA, ?_, rfl⟩
    norm_num [place_order, computeSizing, retryLoop, initState, cfgA, wQuote1000, hf, openedA]

/-! ## C8 — close operation: trade record and ledger update -/

/-- C8: for every close operation, if some `create_order` attempt succeeds
then a trade record is emitted and the position is removed from the ledger;
if all 3 attempts fail then no trade record is emitted and the ledger is
unchanged. -/
theorem c8_close_record_and_removal (w : World) (st : OMState) (o : Order) (p : ℚ) :
    ((∃ k, k < 3 ∧ w.createOk (st.calls + k) = true) →
      (close_order w st o p).1.open_orders = st.open_orders.erase o ∧
      (close_order w st o p).1.trades = st.trades ++ [mkTradeRecord o p]) ∧
    ((∀ k, k < 3 → w.createOk (st.calls + k) = false) →
      (close_order w st o p).1.open_orders = st.open_orders ∧
      (close_order w st o p).1.trades = st.trades) := by
  constructor
  · intro hex
    have hsucc : (retryLoop w.createOk st.calls
        (Event.createOrder o.symbol (if o.direction = Dir.buy then Dir.sell else Dir.buy)
          o.order_size true) 3).2.2 = true :=
      (retryLoop_success_iff w.createOk _ 3 st.calls).mpr hex
    simp [close_order, hsucc]
  · intro hall
    have hfail : (retryLoop w.createOk st.calls
        (Event.createOrder o.symbol (if o.direction = Dir.buy then Dir.sell else Dir.buy)
          o.order_size true) 3).2.2 = false := by
      rw [Bool.eq_false_iff]
      intro hc
      obtain ⟨k, hk, hok⟩ := (retryLoop_success_iff w.createOk _ 3 st.calls).mp hc
      rw [hall k hk] at hok
      cases hok
    simp [close_order, hfail]

/-- Witness for C8: a first-attempt success removes the sample position and
logs its record; three failures leave the state untouched. -/
theorem c8_close_record_and_removal_witness :
    ((close_order wQuote1000 stLong sampleLong 90).1.open_orders
        = stLong.open_orders.erase sampleLong ∧
      (close_order wQuote1000 stLong sampleLong 90).1.trades
        = stLong.trades ++ [mkTradeRecord sampleLong 90]) ∧
    ((close_order wFailSell stLong sampleLong 90).1.open_orders = stLong.open_orders ∧
      (close_order wFailSell stLong sampleLong 90).1.trades = stLong.trades) :=
  ⟨(c8_close_record_and_removal wQuote1000 stLong sampleLong 90).1
      ⟨0, by norm_num, rfl⟩,
    (c8_close_record_and_removal wFailSell stLong sampleLong 90).2
      (fun k _ => rfl)⟩

/-! ## C4 — retry exhaustion on open -/

/-- C4: when every `create_order` call raises, an open that reaches the
retry loop makes exactly 3 attempts, each followed by the fixed 5-second
sleep, adds no position, emits no trade record, and returns normally (the
embedding of `place_order` is total because the source catches every
exception). -/
theorem c4_open_retry_exhaustion (w : World) (st : OMState) (symbol : String) (sig : ℤ)
    (p : ℚ)
    (hok : ∀ n, w.createOk n = false)
    (ht : w.ticker (format_symbol symbol) = some p)
    (hpre : (st.open_orders.any fun o =>
      o.symbol == format_symbol symbol &&
      ((sig == 1 && o.direction == Dir.buy) || (sig == 0 && o.direction == Dir.sell)))
        = false) :
    (place_order w st symbol (some sig)).1.open_orders = st.open_orders ∧
    (place_order w st symbol (some sig)).1.trades = st.trades ∧
    (place_order w st symbol (some sig)).2 =
      Event.fetchTicker (format_symbol symbol) ::
        [Event.createOrder (format_symbol symbol)
            (if sig == 1 then Dir.buy else Dir.sell) (computeSizing st.config p).2 false,
          Event.sleep 5,
          Event.createOrder (format_symbol symbol)
            (if sig == 1 then Dir.buy else Dir.sell) (computeSizing st.config p).2 false,
          Event.sleep 5,
          Event.createOrder (format_symbol symbol)
            (if sig == 1 then Dir.buy else Dir.sell) (computeSizing st.config p).2 false,
          Event.sleep 5] ∧
    ((place_order w st symbol (some sig)).2.countP isOpenAttempt) = 3 := by
  have key : place_order w st symbol (some sig) =
      ({ st with config := (computeSizing st.config p).1, calls := st.calls + 3 },
        Event.fetchTicker (format_symbol symbol) ::
          [Event.createOrder (format_symbol symbol)
              (if sig == 1 then Dir.buy else Dir.sell) (computeSizing st.config p).2 false,
            Event.sleep 5,
            Event.createOrder (format_symbol symbol)
              (if sig == 1 then Dir.buy else Dir.sell) (computeSizing st.config p).2 false,
            Event.sleep 5,
            Event.createOrder (format_symbol symbol)
              (if sig == 1 then Dir.buy else Dir.sell) (computeSizing st.config p).2 false,
            Event.sleep 5]) := by
    simp [place_order, hpre, ht, retryLoop_fail3, hok]
  refine ⟨by rw [key], by rw [key], by rw [key], ?_⟩
  rw [key]
  simp [isOpenAttempt]

/-- Witness for C4: a fresh manager, an always-raising exchange quoting 100,
and a BUY signal — no position added, no record, the exact 3-attempt trace. -/
theorem c4_open_retry_exhaustion_witness :
    (place_order wFailSell (initState cfgA) "BTC-USD" (some 1)).1.open_orders
        = (initState cfgA).open_orders ∧
    (place_order wFailSell (initState cfgA) "BTC-USD" (some 1)).1.trades
        = (initState cfgA).trades ∧
    (place_order wFailSell (initState cfgA) "BTC-USD" (some 1)).2 =
      Event.fetchTicker (format_symbol "BTC-USD") ::
        [Event.createOrder (format_symbol "BTC-USD")
            (if (1 : ℤ) == 1 then Dir.buy else Dir.sell)
            (computeSizing (initState cfgA).config 100).2 false,
          Event.sleep 5,
          Event.createOrder (format_symbol "BTC-USD")
            (if (1 : ℤ) == 1 then Dir.buy else Dir.sell)
            (computeSizing (initState cfgA).config 100).2 false,
          Event.sleep 5,
          Event.createOrder (format_symbol "BTC-USD")
            (if (1 : ℤ) == 1 then Dir.buy else Dir.sell)
            (computeSizing (initState cfgA).config 100).2 false,
          Event.sleep 5] ∧
    ((place_order wFailSell (initState cfgA) "BTC-USD" (some 1)).2.countP isOpenAttempt)
      = 3 :=
  c4_open_retry_exhaustion wFailSell (initState cfgA) "BTC-USD" 1 100
    (fun _ => rfl) rfl rfl

/-! ## C9 — SL/TP ordering of freshly created positions -/

/-- C9: every position created by a successful open — under positive prices
and SL/TP percentages strictly between 0 and 100 — satisfies
`stop_loss_price < entry_price < take_profit_price` when LONG and
`take_profit_price < entry_price < stop_loss_price` when SHORT. -/
theorem c9_sl_tp_ordering (w : World) (st : OMState) (symbol : String) (sig : ℤ)
    (o : Order)
    (hsl0 : 0 < st.config.sl_percentage) (hsl1 : st.config.sl_percentage < 100)
    (htp0 : 0 < st.config.tp_percentage) (htp1 : st.config.tp_percentage < 100)
    (hpos : ∀ s q, w.ticker s = some q → 0 < q)
    (hmem : o ∈ (place_order w st symbol (some sig)).1.open_orders)
    (hnew : o ∉ st.open_orders) :
    (o.direction = Dir.buy →
      o.stop_loss_price < o.entry_price ∧ o.entry_price < o.take_profit_price) ∧
    (o.direction = Dir.sell →
      o.take_profit_price < o.entry_price ∧ o.entry_price < o.stop_loss_price) := by
  obtain ⟨p, hticker, hdir, hentry, _, hsl, htp⟩ :=
    place_order_mem_new w st symbol sig o hmem hnew
  have hp : 0 < p := hpos _ _ hticker
  by_cases hsig : (sig == 1) = true
  · simp only [hsig, if_true] at hdir hsl htp
    constructor
    · intro _
      rw [hsl, htp, hentry]
      constructor
      · nlinarith [mul_pos hp hsl0]
      · nlinarith [mul_pos hp htp0]
    · intro hd
      rw [hdir] at hd
      cases hd
  · simp only [hsig, Bool.false_eq_true, if_false] at hdir hsl htp
    rw [if_neg (fun h => Dir.noConfusion h)] at hsl htp
    constructor
    · intro hd
      rw [hdir] at hd
      cases hd
    · intro _
      rw [hsl, htp, hentry]
      constructor
      · nlinarith [mul_pos hp htp0]
      · nlinarith [mul_pos hp hsl0]

/-- Witness for C9: the position opened at price 1000 under `cfgA`
(SL 5 %, TP 10 %) is a LONG with 950 < 1000 < 1100. -/
theorem c9_sl_tp_ordering_witness :
    (openedA.direction = Dir.buy →
      openedA.stop_loss_price < openedA.entry_price ∧
      openedA.entry_price < openedA.take_profit_price) ∧
    (openedA.direction = Dir.sell →
      openedA.take_profit_price < openedA.entry_price ∧
      openedA.entry_price < openedA.stop_loss_price) := by
  have hf : format_symbol "BTC-USD" = "BTC/USDT:USDT" := by decide
  refine c9_sl_tp_ordering wQuote1000 (initState cfgA) "BTC-USD" 1 openedA
    (by norm_num [initState, cfgA]) (by norm_num [initState, cfgA])
    (by norm_num [initState, cfgA]) (by norm_num [initState, cfgA])
    (fun s q h => ?_) ?_ (by simp [initState])
  · rw [show q = 1000 from (Option.some.injEq _ _).mp h.symm]
    norm_num
  · norm_num [place_order, computeSizing, retryLoop, initState, cfgA, wQuote1000, hf, openedA]

/-! ## C7 — idempotent hold on an agreeing signal -/

/-- C7: when the existing position found for the symbol agrees in direction
with the new signal (LONG with BUY, SHORT with SELL), reconciliation makes
exactly one ticker fetch — no `create_order` call of any kind — and returns
the state unchanged. -/
theorem c7_agreeing_signal_no_action (w : World) (st : OMState) (symbol : String)
    (sig : ℤ) (existing : Order) (p : ℚ)
    (hsig : w.signal symbol = some sig)
    (hfind : st.open_orders.find? (fun o => o.symbol == format_symbol symbol)
      = some existing)
    (ht : w.ticker (format_symbol symbol) = some p)
    (hagree : (existing.direction = Dir.buy ∧ sig = 1) ∨
      (existing.direction = Dir.sell ∧ sig = 0)) :
    processSymbol w st symbol =
      Except.ok (st, [Event.fetchTicker (format_symbol symbol)]) := by
  have hconf : ((existing.direction == Dir.buy && sig == 0) ||
      (existing.direction == Dir.sell && sig == 1)) = false := by
    rcases hagree with ⟨hd, hs⟩ | ⟨hd, hs⟩ <;> subst hs <;> simp [hd]
  simp only [processSymbol, hsig, hfind, ht, hconf, Bool.false_eq_true, if_false]

/-- Witness for C7: holding the sample LONG while a repeated BUY signal
arrives leaves the state untouched and only fetches the price. -/
theorem c7_agreeing_signal_no_action_witness :
    processSymbol wQuote1000 stLong "BTC-USD" =
      Except.ok (stLong, [Event.fetchTicker (format_symbol "BTC-USD")]) :=
  c7_agreeing_signal_no_action wQuote1000 stLong "BTC-USD" 1 sampleLong 1000
    rfl (by decide) rfl (Or.inl ⟨rfl, rfl⟩)

/-! ## C1 — conflicting signal: behaviour when the close exhausts retries -/

/-- C1 (behaviour of the code at the failing input): with an existing LONG,
a SELL signal, and an exchange on which every `create_order` raises, the
conflict branch first makes the 3 failing reduce-only close attempts and
then STILL makes 3 non-reduce-only open attempts for the opposite
direction, while the original LONG stays in the ledger. The trace below is
the exact event sequence. -/
theorem c1_reopen_attempted_after_failed_close :
    processSymbol wFailSell stLong "BTC-USD" =
      Except.ok ({ stLong with calls := 6 },
        [Event.fetchTicker "BTC/USDT:USDT",
          Event.createOrder "BTC/USDT:USDT" Dir.sell 5 true, Event.sleep 5,
          Event.createOrder "BTC/USDT:USDT" Dir.sell 5 true, Event.sleep 5,
          Event.createOrder "BTC/USDT:USDT" Dir.sell 5 true, Event.sleep 5,
          Event.fetchTicker "BTC/USDT:USDT",
          Event.createOrder "BTC/USDT:USDT" Dir.sell 5 false, Event.sleep 5,
          Event.createOrder "BTC/USDT:USDT" Dir.sell 5 false, Event.sleep 5,
          Event.createOrder "BTC/USDT:USDT" Dir.sell 5 false, Event.sleep 5]) ∧
    ({ stLong with calls := 6 }).open_orders = [sampleLong] := by
  have hf : format_symbol "BTC-USD" = "BTC/USDT:USDT" := by decide
  have h1 : Dir.buy ≠ Dir.sell := fun h => Dir.noConfusion h
  have h2 : Dir.sell ≠ Dir.buy := fun h => Dir.noConfusion h
  constructor
  · norm_num [processSymbol, close_order, place_order, computeSizing, retryLoop,
      show_open_trades_events, stLong, cfgB, sampleLong, wFailSell, mkTradeRecord, hf, h1, h2]
  · rfl

/-! ## C2 — ticker exceptions that escape the run loop -/

/-- C2 (behaviour of the code at the failing input): a raising
`fetch_ticker` during the Exit Monitor sweep (`monitor_trades`, line 107)
or during the reconciliation conflict check (`bot.py` line 124) is NOT
caught; it aborts the sweep, the per-symbol pass, and hence the whole run
cycle. -/
theorem c2_uncaught_ticker_exception_aborts_cycle :
    monitor_trades wNoTicker stLong = Except.error () ∧
    processSymbol wNoTicker stLong "BTC-USD" = Except.error () ∧
    runCycle wNoTicker stLong ["BTC-USD"] = Except.error () ∧
    runCycle wNoTicker stLong [] = Except.error () := by
  have hf : format_symbol "BTC-USD" = "BTC/USDT:USDT" := by decide
  refine ⟨rfl, ?_, ?_, rfl⟩
  · simp [processSymbol, hf, wNoTicker, stLong, sampleLong]
  · simp [runCycle, processSymbols, processSymbol, hf, wNoTicker, stLong, sampleLong]

/-! ## Ledger-invariant preservation lemmas (towards C3) -/

/-- Removing an element preserves the ledger invariant. -/
theorem LedgerInv_erase (l : List Order) (o : Order) (h : LedgerInv l) :
    LedgerInv (l.erase o) :=
  List.Pairwise.sublist (List.erase_sublist o l) h

/-- `close_order` only ever removes from the ledger, so it preserves the
invariant. -/
theorem close_order_inv (w : World) (st : OMState) (o : Order) (p : ℚ)
    (h : LedgerInv st.open_orders) :
    LedgerInv (close_order w st o p).1.open_orders := by
  simp only [close_order]
  split <;> split <;> first
    | exact LedgerInv_erase _ _ h
    | exact h

/-- `place_order` preserves the invariant whenever either no ledger entry
carries the formatted symbol at all, or the signal is one of the two values
`0` / `1` the de-duplication pre-check knows about. (Both disjuncts hold at
every call site in `bot.run`.) -/
theorem place_order_inv (w : World) (st : OMState) (symbol : String) (sig : ℤ)
    (h : LedgerInv st.open_orders)
    (hguard : (∀ o ∈ st.open_orders, o.symbol ≠ format_symbol symbol) ∨
      sig = 0 ∨ sig = 1) :
    LedgerInv (place_order w st symbol (some sig)).1.open_orders := by
  by_cases hpre : (st.open_orders.any fun o' =>
      o'.symbol == format_symbol symbol &&
      ((sig == 1 && o'.direction == Dir.buy) || (sig == 0 && o'.direction == Dir.sell))) = true
  · simp only [place_order, hpre, if_true]
    exact h
  · cases hticker : w.ticker (format_symbol symbol) with
    | none =>
      simp only [place_order, hpre, hticker, Bool.false_eq_true, if_false]
      exact h
    | some p =>
      by_cases hsucc : (retryLoop w.createOk st.calls
          (Event.createOrder (format_symbol symbol)
            (if sig == 1 then Dir.buy else Dir.sell) (computeSizing st.config p).2 false)
          3).2.2 = true
      · simp only [place_order, hpre, hticker, hsucc, Bool.false_eq_true, if_false, if_true]
        rw [LedgerInv, List.pairwise_append]
        refine ⟨h, List.pairwise_singleton _ _, ?_⟩
        intro a ha b hb
        simp only [List.mem_singleton] at hb
        subst hb
        rintro ⟨hsym, hdir⟩
        rcases hguard with hno | hsig01
        · exact hno a ha hsym
        · apply hpre
          refine List.any_eq_true.mpr ⟨a, ha, ?_⟩
          rcases hsig01 with rfl | rfl <;> simp [hsym, hdir]
      · simp only [place_order, hpre, hticker, hsucc, Bool.false_eq_true, if_false]
        exact h

/-- A per-symbol reconciliation pass preserves the ledger invariant: the
no-existing-order branch opens with no entry of that symbol present, and the
conflict branch closes first and reopens with a signal in `{0, 1}`. -/
theorem processSymbol_inv (w : World) (st : OMState) (symbol : String)
    (r : OMState × List Event) (hok : processSymbol w st symbol = Except.ok r)
    (h : LedgerInv st.open_orders) : LedgerInv r.1.open_orders := by
  unfold processSymbol at hok
  cases hsig : w.signal symbol with
  | none =>
    simp only [hsig] at hok
    cases hok
    exact h
  | some sig =>
    simp only [hsig] at hok
    cases hfind : st.open_orders.find? (fun o => o.symbol == format_symbol symbol) with
    | none =>
      simp only [hfind] at hok
      cases hok
      refine place_order_inv w st symbol sig h (Or.inl ?_)
      intro o ho
      have := List.find?_eq_none.mp hfind o ho
      simpa using this
    | some existing =>
      simp only [hfind] at hok
      cases hticker : w.ticker (format_symbol symbol) with
      | none =>
        simp only [hticker] at hok
        cases hok
      | some p =>
        simp only [hticker] at hok
        by_cases hconf : ((existing.direction == Dir.buy && sig == 0) ||
            (existing.direction == Dir.sell && sig == 1)) = true
        · rw [if_pos hconf] at hok
          cases hok
          have hsig01 : sig = 0 ∨ sig = 1 := by
            simp only [Bool.or_eq_true, Bool.and_eq_true, beq_iff_eq] at hconf
            rcases hconf with ⟨_, hs⟩ | ⟨_, hs⟩
            · exact Or.inl hs
            · exact Or.inr hs
          exact place_order_inv w _ symbol sig
            (close_order_inv w st existing p h) (Or.inr hsig01)
        · rw [if_neg hconf] at hok
          cases hok
          exact h

/-- Every atomic step of the system preserves the ledger invariant. -/
theorem Step_inv {st st' : OMState} (hs : Step st st')
    (h : LedgerInv st.open_orders) : LedgerInv st'.open_orders := by
  cases hs with
  | process w symbol st r hok => exact processSymbol_inv w st symbol r hok h
  | close w st o p => exact close_order_inv w st o p h

/-- `find?` skips a prefix on which the predicate never holds. -/
theorem find?_append_of_none {α : Type} (p : α → Bool) (l₁ l₂ : List α)
    (h : l₁.find? p = none) : (l₁ ++ l₂).find? p = l₂.find? p := by
  induction l₁ with
  | nil => simp
  | cons a t ih =>
    by_cases hpa : p a = true
    · rw [List.find?_cons_of_pos _ hpa] at h
      cases h
    · rw [List.cons_append, List.find?_cons_of_neg _ hpa]
      rw [List.find?_cons_of_neg _ hpa] at h
      exact ih h

/-- A BUY open (`signal = 1`) into a ledger with no entry for the formatted
symbol, with an available ticker and a first-attempt `create_order` success,
appends exactly one new BUY position for that symbol. -/
theorem place_order_buy_appends (w : World) (st : OMState) (symbol : String) (p : ℚ)
    (hnone : ∀ o ∈ st.open_orders, (o.symbol == format_symbol symbol) = false)
    (ht : w.ticker (format_symbol symbol) = some p)
    (hok : w.createOk st.calls = true) :
    ∃ o, (place_order w st symbol (some 1)).1.open_orders = st.open_orders ++ [o] ∧
      (o.symbol == format_symbol symbol) = true ∧ o.direction = Dir.buy := by
  have hpre : (st.open_orders.any fun o =>
      o.symbol == format_symbol symbol &&
      (((1 : ℤ) == 1 && o.direction == Dir.buy) ||
        ((1 : ℤ) == 0 && o.direction == Dir.sell))) = false := by
    rw [List.any_eq_false]
    intro o ho
    simp [hnone o ho]
  have hsucc := retryLoop3_first_ok w.createOk st.calls
    (Event.createOrder (format_symbol symbol) Dir.buy (computeSizing st.config p).2 false)
    hok
  simp only [show ((1 : ℤ) == 1) = true from rfl, show ((1 : ℤ) == 0) = false from rfl,
    Bool.true_and, Bool.false_and, Bool.false_or, Bool.or_false] at hpre
  simp only [place_order, ht, hsucc, Bool.false_eq_true, if_false, if_true,
    show ((1 : ℤ) == 1) = true from rfl, show ((1 : ℤ) == 0) = false from rfl,
    Bool.true_and, Bool.false_and, Bool.false_or, Bool.or_false,
    eq_self_iff_true, reduceIte, hpre]
  refine ⟨_, rfl, ?_, ?_⟩
  · simp
  · simp

/-! ## C3 — no duplicate (symbol, direction) positions -/

/-- C3: every reachable ledger state is free of duplicate
`(symbol, direction)` pairs, and two consecutive BUY signals for the same
symbol with no intervening conflicting signal leave exactly one position for
that symbol in the ledger: the second pass finds the agreeing LONG and adds
nothing. -/
theorem c3_no_duplicate_positions :
    (∀ (cfg : Config) (st : OMState), Reachable cfg st → LedgerInv st.open_orders) ∧
    (∀ (w w' : World) (st : OMState) (symbol : String) (p p' : ℚ)
      (r r' : OMState × List Event),
      (∀ o ∈ st.open_orders, (o.symbol == format_symbol symbol) = false) →
      w.signal symbol = some 1 → w.ticker (format_symbol symbol) = some p →
      w.createOk st.calls = true →
      w'.signal symbol = some 1 → w'.ticker (format_symbol symbol) = some p' →
      processSymbol w st symbol = Except.ok r →
      processSymbol w' r.1 symbol = Except.ok r' →
      r'.1.open_orders.countP (fun o => o.symbol == format_symbol symbol) = 1) := by
  constructor
  · intro cfg st h
    induction h with
    | refl => exact List.Pairwise.nil
    | tail _ hstep ih => exact Step_inv hstep ih
  · intro w w' st symbol p p' r r' hnone hsig1 ht1 hok1 hsig2 ht2 hr hr'
    have hfind1 : st.open_orders.find? (fun o => o.symbol == format_symbol symbol)
        = none :=
      List.find?_eq_none.mpr (fun o ho => by simp [hnone o ho])
    have h1 : processSymbol w st symbol = Except.ok (place_order w st symbol (some 1)) := by
      simp only [processSymbol, hsig1, hfind1]
    rw [h1] at hr
    have hr1 : r = place_order w st symbol (some 1) := (Except.ok.inj hr).symm
    obtain ⟨o, hoo, hosym, hodir⟩ := place_order_buy_appends w st symbol p hnone ht1 hok1
    have hfind2 : r.1.open_orders.find? (fun o' => o'.symbol == format_symbol symbol)
        = some o := by
      rw [hr1, hoo, find?_append_of_none _ _ _ hfind1]
      simp [List.find?_cons, hosym]
    have hconf : ((o.direction == Dir.buy && (1 : ℤ) == 0) ||
        (o.direction == Dir.sell && (1 : ℤ) == 1)) = false := by
      simp [hodir]
    have h2 : processSymbol w' r.1 symbol =
        Except.ok (r.1, [Event.fetchTicker (format_symbol symbol)]) := by
      simp only [processSymbol, hsig2, hfind2, ht2, hconf, Bool.false_eq_true, if_false]
    rw [h2] at hr'
    have hr2 : r' = (r.1, [Event.fetchTicker (format_symbol symbol)]) :=
      (Except.ok.inj hr').symm
    rw [hr2, hr1, hoo, List.countP_append]
    have hz : st.open_orders.countP (fun o' => o'.symbol == format_symbol symbol) = 0 :=
      List.countP_eq_zero.mpr (fun o' ho' => by simp [hnone o' ho'])
    simp [hz, List.countP_cons, hosym]

/-- Witness for C3: the empty initial ledger satisfies the invariant, and
the concrete double-BUY run on `BTC-USD` ends with exactly one position for
that symbol. -/
theorem c3_no_duplicate_positions_witness :
    LedgerInv (initState cfgA).open_orders ∧
    stAfterBuy.open_orders.countP (fun o => o.symbol == format_symbol "BTC-USD") = 1 := by
  have hf : format_symbol "BTC-USD" = "BTC/USDT:USDT" := by decide
  refine ⟨c3_no_duplicate_positions.1 cfgA (initState cfgA) Relation.ReflTransGen.refl,
    c3_no_duplicate_positions.2 wQuote1000 wQuote1000 (initState cfgA) "BTC-USD"
      1000 1000
      (stAfterBuy, [Event.fetchTicker "BTC/USDT:USDT",
        Event.createOrder "BTC/USDT:USDT" Dir.buy 1 false,
        Event.fetchTicker "BTC/USDT:USDT"])
      (stAfterBuy, [Event.fetchTicker (format_symbol "BTC-USD")])
      (fun o ho => absurd ho (List.not_mem_nil o))
      rfl rfl rfl rfl rfl ?_ ?_⟩
  · norm_num [processSymbol, place_order, computeSizing, retryLoop,
      show_open_trades_events, initState, cfgA, cfg200, openedA, stAfterBuy,
      wQuote1000, hf]
  · rfl

/-! ## C10 — the sizing correction mutates the shared configuration -/

/-- C10: when the minimum-size correction fires it rewrites
`investment_amount` in the shared configuration (leaving every other field
unchanged), the open operation stores that corrected configuration back into
the manager state, and every subsequent open — any symbol, any later cycle —
sizes from the corrected amount: in the two-cycle run below, cycle 2 on
symbol `B-USD` opens with size 10 = 200·5/100 (corrected amount 200) instead
of 0.5 = 10·5/100 (original amount 10). -/
theorem c10_config_mutation_propagates :
    (∀ (cfg : Config) (p : ℚ), cfg.investment_amount * cfg.leverage / p < 1 →
      (computeSizing cfg p).1.investment_amount = ((⌈p / cfg.leverage⌉ : ℤ) : ℚ) ∧
      (computeSizing cfg p).1.leverage = cfg.leverage ∧
      (computeSizing cfg p).1.sl_percentage = cfg.sl_percentage ∧
      (computeSizing cfg p).1.tp_percentage = cfg.tp_percentage) ∧
    (∀ (w : World) (st : OMState) (symbol : String) (sig : ℤ) (p : ℚ),
      w.ticker (format_symbol symbol) = some p →
      ((st.open_orders.any fun o => o.symbol == format_symbol symbol &&
        ((sig == 1 && o.direction == Dir.buy) || (sig == 0 && o.direction == Dir.sell)))
          = false) →
      (place_order w st symbol (some sig)).1.config = (computeSizing st.config p).1) ∧
    runCycle wTwoQuotes (initState cfgA) ["A-USD"] =
      Except.ok (stAfterA,
        [Event.fetchTicker "A/USDT:USDT",
          Event.createOrder "A/USDT:USDT" Dir.buy 1 false,
          Event.fetchTicker "A/USDT:USDT", Event.fetchTicker "A/USDT:USDT",
          Event.fetchTicker "A/USDT:USDT"]) ∧
    runCycle wTwoQuotes stAfterA ["B-USD"] =
      Except.ok (stAfterB,
        [Event.fetchTicker "B/USDT:USDT",
          Event.createOrder "B/USDT:USDT" Dir.buy 10 false,
          Event.fetchTicker "A/USDT:USDT", Event.fetchTicker "B/USDT:USDT",
          Event.fetchTicker "A/USDT:USDT", Event.fetchTicker "B/USDT:USDT",
          Event.fetchTicker "A/USDT:USDT", Event.fetchTicker "B/USDT:USDT"]) := by
  have hfA : format_symbol "A-USD" = "A/USDT:USDT" := by decide
  have hfB : format_symbol "B-USD" = "B/USDT:USDT" := by decide
  refine ⟨?_, ?_, ?_, ?_⟩
  · intro cfg p hlt
    refine ⟨?_, (computeSizing_fields cfg p).1, (computeSizing_fields cfg p).2.1,
      (computeSizing_fields cfg p).2.2⟩
    simp only [computeSizing, hlt, if_true]
  · intro w st symbol sig p ht hpre
    by_cases hsucc : (retryLoop w.createOk st.calls
        (Event.createOrder (format_symbol symbol)
          (if sig == 1 then Dir.buy else Dir.sell) (computeSizing st.config p).2 false)
        3).2.2 = true
    · simp only [place_order, hpre, ht, hsucc, Bool.false_eq_true, if_false, if_true]
    · simp only [place_order, hpre, ht, hsucc, Bool.false_eq_true, if_false]
  · norm_num [runCycle, processSymbols, processSymbol, monitor_trades, monitorGo,
      place_order, close_order, computeSizing, retryLoop, show_open_trades_events,
      exitTrigger, initState, cfgA, cfg200, orderA, stAfterA, wTwoQuotes, hfA]
  · have hAB : ("A/USDT:USDT" : String) ≠ "B/USDT:USDT" := by decide
    have hBA : ("B/USDT:USDT" : String) ≠ "A/USDT:USDT" := by decide
    norm_num [runCycle, processSymbols, processSymbol, monitor_trades, monitorGo,
      place_order, close_order, computeSizing, retryLoop, show_open_trades_events,
      exitTrigger, initState, cfgA, cfg200, orderA, orderB, stAfterA, stAfterB,
      wTwoQuotes, hfB, hAB, hBA]

/-- Witness for C10 at concrete inputs: the correction under `cfgA` at price
1000 yields amount 200 with all other fields intact, and an open through
`place_order` stores exactly the corrected configuration. -/
theorem c10_config_mutation_propagates_witness :
    ((computeSizing cfgA 1000).1.investment_amount = ((⌈(1000 : ℚ) / cfgA.leverage⌉ : ℤ) : ℚ) ∧
      (computeSizing cfgA 1000).1.leverage = cfgA.leverage ∧
      (computeSizing cfgA 1000).1.sl_percentage = cfgA.sl_percentage ∧
      (computeSizing cfgA 1000).1.tp_percentage = cfgA.tp_percentage) ∧
    (place_order wQuote1000 (initState cfgA) "BTC-USD" (some 1)).1.config
      = (computeSizing (initState cfgA).config 1000).1 :=
  ⟨c10_config_mutation_propagates.1 cfgA 1000 (by norm_num [cfgA]),
    c10_config_mutation_propagates.2.1 wQuote1000 (initState cfgA) "BTC-USD" 1 1000
      rfl rfl⟩

end MLTrading
